import Mathlib

/-!
Verification development for the rate-limiting subsystem of the
WebliAI backend repository.

The embedding mirrors:
  - `src/core/rate-limiter/types.ts` (data model),
  - `src/core/rate-limiter/storage/base.storage.ts` and
    `storage/memory.storage.ts` (the in-memory backend with TTL),
  - `src/core/rate-limiter/strategies/token-bucket.strategy.ts`
    (the `TokenBucketStrategy` class),
  - `src/core/rate-limiter/rate-limiter.ts` (the `RateLimiter` orchestrator).

JavaScript numbers are modelled as rationals (`ℚ`); `Date.now()` values are
explicit `now : ℚ` parameters (epoch milliseconds).  JS truthiness of the
optional numeric fields (`data.blockUntil`, `config.blockDuration`) is made
explicit through `truthyQ`: the number `0` is falsy.  Storage writes and
deletes are recorded as explicit effect lists so that frame properties
("this operation never persists") are visible in the model; the in-memory
backend's lazy expiry is modelled logically inside `MemoryStorage.get`
(an expired entry is already absent for every reader, so the physical
lazy delete is unobservable).

Renames forced by the verification environment:
`keyPrefix` from the source appears here as `keyPref` / `storagePref`.
-/

/-- `RateLimitConfig` from `types.ts`. -/
structure RateLimitConfig where
  points : ℚ
  duration : ℚ
  blockDuration : Option ℚ := none
  keyPref : Option String := none
  consumeOnFailure : Option Bool := none
  deriving Repr, DecidableEq

/-- `RateLimitData` from `types.ts`; the record persisted per identifier. -/
structure RateLimitData where
  tokens : ℚ
  lastRefill : ℚ
  consumed : ℚ
  blockUntil : Option ℚ := none
  deriving Repr, DecidableEq

/-- `RateLimitResult` from `types.ts`.  The optional `isBlocked?` field of the
TS interface is an `Option Bool`: `none` models the field being absent from
the returned object literal. -/
structure RateLimitResult where
  allowed : Bool
  remaining : ℚ
  limit : ℚ
  resetAt : ℚ
  retryAfter : ℚ
  consumed : ℚ
  isBlocked : Option Bool := none
  deriving Repr, DecidableEq

/-- `Math.floor`, as a map on rationals returning a rational. -/
def jsFloor (q : ℚ) : ℚ := (⌊q⌋ : ℚ)

/-- `Math.ceil`, as a map on rationals returning a rational. -/
def jsCeil (q : ℚ) : ℚ := (⌈q⌉ : ℚ)

/-- JS truthiness filter for an optional number: `0` is falsy, so a present
`0` behaves exactly like an absent value in `if (x)` and `x || d`. -/
def truthyQ (o : Option ℚ) : Option ℚ :=
  match o with
  | none => none
  | some q => if q = 0 then none else some q

/-- `data.blockUntil && data.blockUntil > now` (equivalently
`data.blockUntil && now < data.blockUntil` in `getStatus`). -/
def blockActive (bu : Option ℚ) (now : ℚ) : Bool :=
  match truthyQ bu with
  | none => false
  | some b => decide (now < b)

/-- One physical entry of the in-memory backend: the stored record plus its
absolute expiry timestamp (`memory.storage.ts`, `CacheEntry`). -/
structure StoreEntry where
  data : RateLimitData
  expiresAt : ℚ
  deriving Repr, DecidableEq

/-- The in-memory backend's cache (`Map<string, CacheEntry>`). -/
def Store : Type := String → Option StoreEntry

/-- A `Map` with no entries. -/
def emptyStore : Store := fun _ => none

/-- A storage-layer write or delete issued by a strategy operation. -/
inductive StorageEff where
  | setEff (key : String) (data : RateLimitData) (ttl : ℚ)
  | delEff (key : String)
  deriving Repr, DecidableEq

namespace MemoryStorage

/-- `BaseRateLimitStorage.buildKey` (`base.storage.ts`): the backend prefixes
every key with its own `keyPrefix` (default `"ratelimit"`). -/
def buildKey (storagePref key : String) : String := storagePref ++ ":" ++ key

/-- `MemoryRateLimitStorage.get`: an entry whose TTL has elapsed
(`Date.now() > entry.expiresAt`) is reported absent. -/
def get (storagePref : String) (cache : Store) (key : String) (now : ℚ) :
    Option RateLimitData :=
  match cache (buildKey storagePref key) with
  | none => none
  | some entry => if now > entry.expiresAt then none else some entry.data

/-- `MemoryRateLimitStorage.set`: unconditional overwrite with
`expiresAt = Date.now() + ttlInSeconds * 1000`. -/
def set (storagePref : String) (cache : Store) (key : String)
    (data : RateLimitData) (ttlInSeconds now : ℚ) : Store :=
  fun k =>
    if k = buildKey storagePref key then
      some { data := data, expiresAt := now + ttlInSeconds * 1000 }
    else cache k

/-- `MemoryRateLimitStorage.delete`. -/
def delete (storagePref : String) (cache : Store) (key : String) : Store :=
  fun k => if k = buildKey storagePref key then none else cache k

end MemoryStorage

/-- Replay one recorded effect against the in-memory backend. -/
def applyEff (storagePref : String) (now : ℚ) (cache : Store) :
    StorageEff → Store
  | .setEff key data ttl => MemoryStorage.set storagePref cache key data ttl now
  | .delEff key => MemoryStorage.delete storagePref cache key

/-- Replay a list of recorded effects in order. -/
def applyEffs (storagePref : String) (now : ℚ) (cache : Store)
    (effs : List StorageEff) : Store :=
  effs.foldl (applyEff storagePref now) cache

namespace TokenBucketStrategy

/-- `TokenBucketStrategy.buildKey`: the strategy prefixes the limiter's key
with its own `keyPrefix` (default `"tb"`). -/
def buildKey (keyPref identifier : String) : String :=
  keyPref ++ ":" ++ identifier

/-- `TokenBucketStrategy.getRefillRate`: `config.points / config.duration`
tokens per second. -/
def getRefillRate (config : RateLimitConfig) : ℚ :=
  config.points / config.duration

/-- `TokenBucketStrategy.refillTokens`: add `elapsedSeconds * refillRate`
tokens, capped at capacity, and stamp `lastRefill = now`. -/
def refillTokens (data : RateLimitData) (config : RateLimitConfig)
    (now : ℚ) : RateLimitData :=
  let refillRate := getRefillRate config
  let elapsed := (now - data.lastRefill) / 1000
  let tokensToAdd := elapsed * refillRate
  let newTokens := min config.points (data.tokens + tokensToAdd)
  { tokens := newTokens, lastRefill := now,
    consumed := data.consumed, blockUntil := data.blockUntil }

/-- The load-or-initialize prologue of `consume` (`types.ts` lifecycle:
absence is equivalent to a fresh full bucket). -/
def loadOrInit (storagePref keyPref : String) (cache : Store)
    (identifier : String) (config : RateLimitConfig) (now : ℚ) :
    RateLimitData :=
  match MemoryStorage.get storagePref cache (buildKey keyPref identifier) now with
  | some d => d
  | none => { tokens := config.points, lastRefill := now,
              consumed := 0, blockUntil := none }

/-- `TokenBucketStrategy.consume`, returning the result together with the
storage effects the call issued. -/
def consume (storagePref keyPref : String) (cache : Store)
    (identifier : String) (points : ℚ) (config : RateLimitConfig)
    (now : ℚ) : RateLimitResult × List StorageEff :=
  let key := buildKey keyPref identifier
  let data0 := loadOrInit storagePref keyPref cache identifier config now
  if blockActive data0.blockUntil now then
    let b := data0.blockUntil.getD 0
    ({ allowed := false, remaining := 0, limit := config.points,
       resetAt := b, retryAfter := jsCeil ((b - now) / 1000),
       consumed := data0.consumed, isBlocked := some true }, [])
  else
    let data := refillTokens data0 config now
    if data.tokens < points then
      let retryAfter := jsCeil ((points - data.tokens) / getRefillRate config)
      let data1 :=
        match truthyQ config.blockDuration with
        | some bd => { data with blockUntil := some (now + bd * 1000) }
        | none => data
      let ttl := config.duration + (truthyQ config.blockDuration).getD 60
      ({ allowed := false, remaining := jsFloor data1.tokens,
         limit := config.points, resetAt := now + retryAfter * 1000,
         retryAfter := retryAfter, consumed := data1.consumed,
         isBlocked := none },
       [.setEff key data1 ttl])
    else
      let data2 := { data with tokens := data.tokens - points,
                               consumed := data.consumed + points }
      let tokensNeeded := config.points - data2.tokens
      let secondsToFull := tokensNeeded / getRefillRate config
      let resetAt := now + secondsToFull * 1000
      ({ allowed := true, remaining := jsFloor data2.tokens,
         limit := config.points, resetAt := jsFloor resetAt,
         retryAfter := 0, consumed := data2.consumed, isBlocked := none },
       [.setEff key data2 config.duration])

/-- `TokenBucketStrategy.getStatus`: read-only preview. -/
def getStatus (storagePref keyPref : String) (cache : Store)
    (identifier : String) (config : RateLimitConfig) (now : ℚ) :
    RateLimitResult × List StorageEff :=
  let key := buildKey keyPref identifier
  match MemoryStorage.get storagePref cache key now with
  | none =>
    ({ allowed := true, remaining := config.points, limit := config.points,
       resetAt := now, retryAfter := 0, consumed := 0, isBlocked := none }, [])
  | some data0 =>
    if blockActive data0.blockUntil now then
      let b := data0.blockUntil.getD 0
      ({ allowed := false, remaining := 0, limit := config.points,
         resetAt := b, retryAfter := jsCeil ((b - now) / 1000),
         consumed := data0.consumed, isBlocked := some true }, [])
    else
      let data := refillTokens data0 config now
      let tokensNeeded := config.points - data.tokens
      let secondsToFull := tokensNeeded / getRefillRate config
      let resetAt := now + secondsToFull * 1000
      ({ allowed := decide (1 ≤ data.tokens), remaining := jsFloor data.tokens,
         limit := config.points, resetAt := jsFloor resetAt,
         retryAfter := 0, consumed := data.consumed, isBlocked := none }, [])

/-- `TokenBucketStrategy.reset`: delete the stored entry. -/
def reset (keyPref identifier : String) : List StorageEff :=
  [.delEff (buildKey keyPref identifier)]

/-- `TokenBucketStrategy.block`: overwrite with an explicit block record,
TTL slightly longer than the block. -/
def block (keyPref identifier : String) (duration now : ℚ) :
    List StorageEff :=
  let blockUntil := now + duration * 1000
  [.setEff (buildKey keyPref identifier)
    { tokens := 0, lastRefill := now, consumed := 0,
      blockUntil := some blockUntil }
    (duration + 60)]

/-- `TokenBucketStrategy.isBlocked`. -/
def isBlocked (storagePref keyPref : String) (cache : Store)
    (identifier : String) (now : ℚ) : Bool :=
  match MemoryStorage.get storagePref cache (buildKey keyPref identifier) now with
  | none => false
  | some data =>
    match truthyQ data.blockUntil with
    | none => false
    | some b => decide (now < b)

end TokenBucketStrategy

def ratelimitPfx : String := "ratelimit"

def tbPfx : String := "tb"

/-- `Partial<RateLimitConfig>` as used by `RateLimiter.consume`'s optional
`config` override: `some v` is a present property, `none` an absent one. -/
structure ConfigOverride where
  points : Option ℚ := none
  duration : Option ℚ := none
  blockDuration : Option (Option ℚ) := none
  keyPref : Option (Option String) := none
  consumeOnFailure : Option (Option Bool) := none
  deriving Repr, DecidableEq

/-- The spread merge `{ ...this.defaultConfig, ...config }`. -/
def mergeConfig (base : RateLimitConfig) (o : Option ConfigOverride) :
    RateLimitConfig :=
  match o with
  | none => base
  | some ov =>
    { points := ov.points.getD base.points,
      duration := ov.duration.getD base.duration,
      blockDuration := ov.blockDuration.getD base.blockDuration,
      keyPref := ov.keyPref.getD base.keyPref,
      consumeOnFailure := ov.consumeOnFailure.getD base.consumeOnFailure }

/-- Fault injection for the storage backend: when a flag is on, the
corresponding storage call throws (the spec's "storage backend forced to
error on get/set"). -/
structure StorageFaults where
  failGet : Bool
  failSet : Bool
  deriving Repr, DecidableEq

/-- `TokenBucketStrategy.consume` as seen through a possibly-failing storage
backend: `storage.get` throws first; otherwise, if the chosen branch issues
a `storage.set` and `set` throws, the exception propagates before any result
is returned (so the recorded effects are discarded). -/
def TokenBucketStrategy.consumeF (faults : StorageFaults)
    (storagePref keyPref : String) (cache : Store) (identifier : String)
    (points : ℚ) (config : RateLimitConfig) (now : ℚ) :
    Except String (RateLimitResult × List StorageEff) :=
  if faults.failGet then .error "StorageError: get failed"
  else
    let res := TokenBucketStrategy.consume storagePref keyPref cache
      identifier points config now
    if faults.failSet && !res.2.isEmpty then .error "StorageError: set failed"
    else .ok res

namespace RateLimiter

/-- `RateLimiter.sanitizeIdentifier`: replace every character outside
`[a-zA-Z0-9._-]` with an underscore. -/
def sanitizeChar (c : Char) : Char :=
  if c.isAlphanum || c = '.' || c = '_' || c = '-' then c else '_'

/-- `identifier.replace(/[^a-zA-Z0-9._-]/g, "_")`. -/
def sanitizeIdentifier (identifier : String) : String :=
  ⟨identifier.data.map sanitizeChar⟩

/-- `RateLimiter.defaultKeyGenerator`: `namespace ? namespace:identifier :
identifier`.  An empty namespace string is falsy in JS, hence behaves like
an absent namespace. -/
def defaultKeyGenerator (identifier : String) (ns : Option String) : String :=
  match ns with
  | none => identifier
  | some n => if n = "" then identifier else n ++ ":" ++ identifier

/-- Process-local state of one `RateLimiter` instance: the default config,
the bypass set, and whether an `onError` callback was registered. -/
structure LimiterState where
  defaultConfig : RateLimitConfig
  bypassList : Finset String
  hasOnError : Bool
  deriving DecidableEq

/-- `RateLimiter.addBypass`. -/
def addBypass (bypassList : Finset String) (identifier : String) :
    Finset String :=
  insert identifier bypassList

/-- `RateLimiter.removeBypass`. -/
def removeBypass (bypassList : Finset String) (identifier : String) :
    Finset String :=
  bypassList.erase identifier

/-- The sentinel result returned when the identifier is bypassed. -/
def bypassResult (now : ℚ) : RateLimitResult :=
  { allowed := true, remaining := 999999, limit := 999999,
    resetAt := now + 999999, retryAfter := 0, consumed := 0,
    isBlocked := none }

/-- The fail-open result built in `RateLimiter.consume`'s catch block. -/
def failOpenResult (defaultConfig : RateLimitConfig) (now : ℚ) :
    RateLimitResult :=
  { allowed := true, remaining := defaultConfig.points,
    limit := defaultConfig.points,
    resetAt := now + defaultConfig.duration * 1000,
    retryAfter := 0, consumed := 0, isBlocked := none }

/-- `RateLimiter.consume`.  The returned `Nat` counts how many times the
registered `onError` callback was invoked during the call. -/
def consume (st : LimiterState) (faults : StorageFaults)
    (storagePref keyPref : String) (cache : Store) (identifier : String)
    (points : ℚ) (config : Option ConfigOverride) (ns : Option String)
    (now : ℚ) : RateLimitResult × List StorageEff × Nat :=
  let safeIdentifier := sanitizeIdentifier identifier
  if safeIdentifier ∈ st.bypassList then
    (bypassResult now, [], 0)
  else
    let key := defaultKeyGenerator safeIdentifier ns
    let finalConfig := mergeConfig st.defaultConfig config
    match TokenBucketStrategy.consumeF faults storagePref keyPref cache key
        points finalConfig now with
    | .ok res => (res.1, res.2, 0)
    | .error _ =>
      (failOpenResult st.defaultConfig now, [],
       if st.hasOnError then 1 else 0)

end RateLimiter

/-- The full storage key a limiter-level call addresses: limiter key
generation, then the strategy's `tb:` prefix, then the backend's
`ratelimit:` prefix. -/
def limiterStorageKey (identifier : String) (ns : Option String) : String :=
  MemoryStorage.buildKey ratelimitPfx
    (TokenBucketStrategy.buildKey tbPfx
      (RateLimiter.defaultKeyGenerator
        (RateLimiter.sanitizeIdentifier identifier) ns))

/-- One strategy-level operation of a usage trace (the operation plus its
subject identifier and arguments). -/
inductive Op where
  | consumeOp (identifier : String) (cost : ℚ)
  | statusOp (identifier : String)
  | blockOp (identifier : String) (duration : ℚ)
  | resetOp (identifier : String)
  deriving Repr, DecidableEq

/-- Run one operation against the store, applying its storage effects. -/
def execOp (storagePref keyPref : String) (config : RateLimitConfig)
    (cache : Store) (now : ℚ) : Op → Store
  | .consumeOp identifier cost =>
    applyEffs storagePref now cache
      (TokenBucketStrategy.consume storagePref keyPref cache identifier
        cost config now).2
  | .statusOp identifier =>
    applyEffs storagePref now cache
      (TokenBucketStrategy.getStatus storagePref keyPref cache identifier
        config now).2
  | .blockOp identifier d =>
    applyEffs storagePref now cache
      (TokenBucketStrategy.block keyPref identifier d now)
  | .resetOp identifier =>
    applyEffs storagePref now cache
      (TokenBucketStrategy.reset keyPref identifier)

/-- Run a timed trace of operations left to right. -/
def runTrace (storagePref keyPref : String) (config : RateLimitConfig) :
    Store → List (ℚ × Op) → Store
  | cache, [] => cache
  | cache, (t, op) :: rest =>
    runTrace storagePref keyPref config
      (execOp storagePref keyPref config cache t op) rest

/-- Cost arguments of `consume` operations are non-negative. -/
def opCostOK : Op → Prop
  | .consumeOp _ cost => 0 ≤ cost
  | _ => True

/-- The trace's timestamps are non-decreasing starting from `t0`, and all
consume costs are non-negative. -/
def traceOK (t0 : ℚ) : List (ℚ × Op) → Prop
  | [] => True
  | (t, op) :: rest => t0 ≤ t ∧ opCostOK op ∧ traceOK t rest

/-- Store invariant at time `t`: every physically present entry has a token
balance within `[0, points]` and was last refilled no later than `t`. -/
def StoreInv (config : RateLimitConfig) (t : ℚ) (cache : Store) : Prop :=
  ∀ k e, cache k = some e →
    0 ≤ e.data.tokens ∧ e.data.tokens ≤ config.points ∧
    e.data.lastRefill ≤ t

/-- `i` immediately-successive `consume(cost=1)` calls at a fixed instant
`now`, starting from `cache` (claim C1's drain scenario). -/
def consumeIter (storagePref keyPref identifier : String)
    (config : RateLimitConfig) (now : ℚ) (cache : Store) : ℕ → Store
  | 0 => cache
  | n + 1 =>
    let cache' := consumeIter storagePref keyPref identifier config now cache n
    applyEffs storagePref now cache'
      (TokenBucketStrategy.consume storagePref keyPref cache' identifier 1
        config now).2

/-- The full backend key of one identifier under the default strategy and
backend prefixes. -/
def tbFullKey (identifier : String) : String :=
  MemoryStorage.buildKey ratelimitPfx
    (TokenBucketStrategy.buildKey tbPfx identifier)

def idU : String := "u"

def idAB : String := "a:b"

/-- Concrete store for refill witnesses: identifier `u` drained to 0 tokens
at epoch 0, entry alive until 100000 ms. -/
def c3Store : Store := fun k =>
  if k = tbFullKey idU then
    some { data := { tokens := 0, lastRefill := 0, consumed := 10,
                     blockUntil := none },
           expiresAt := 100000 }
  else none

def c4Config : RateLimitConfig :=
  { points := 5, duration := 10, blockDuration := some 30 }

/-- Concrete store for block-escalation witnesses: identifier `u` drained to
0 tokens at epoch 0 with no block yet. -/
def c4Store : Store := fun k =>
  if k = tbFullKey idU then
    some { data := { tokens := 0, lastRefill := 0, consumed := 5,
                     blockUntil := none },
           expiresAt := 100000 }
  else none

/-- Concrete store for block-precedence witnesses: identifier `u` hard
blocked until 10000 ms. -/
def c5Store : Store := fun k =>
  if k = tbFullKey idU then
    some { data := { tokens := 0, lastRefill := 0, consumed := 3,
                     blockUntil := some 10000 },
           expiresAt := 999999 }
  else none

/-- Concrete store for the bypass counterexample: the bucket of the
sanitized identifier `a_b` is hard blocked until 1000000 ms. -/
def c6Store : Store := fun k =>
  if k = tbFullKey (RateLimiter.sanitizeIdentifier idAB) then
    some { data := { tokens := 0, lastRefill := 0, consumed := 0,
                     blockUntil := some 1000000 },
           expiresAt := 2000000 }
  else none

def c6Config : RateLimitConfig := { points := 5, duration := 60 }

/-- Limiter state for the bypass counterexample: `addBypass` was called with
the raw identifier `a:b`. -/
def c6State : RateLimiter.LimiterState :=
  { defaultConfig := c6Config,
    bypassList := RateLimiter.addBypass ∅ idAB,
    hasOnError := false }

/-- Limiter state whose bypass list holds the (sanitize-invariant)
identifier `u`. -/
def c6StateGood : RateLimiter.LimiterState :=
  { defaultConfig := c6Config,
    bypassList := RateLimiter.addBypass ∅ idU,
    hasOnError := false }

def c9Config : RateLimitConfig := { points := 2, duration := 10 }

/-- Config with integer capacity 3 for the drain witness. -/
def c9Trace3Config : RateLimitConfig := { points := 3, duration := 10 }

def idIp1 : String := "1.2.3.4:443"

def idIp2 : String := "1.2.3.4_443"

def nsA : String := "a"

def nsB : String := "b"

/-- Concrete trace for the invariant witness: two consume calls then an
explicit block, at increasing times. -/
def c9Trace : List (ℚ × Op) :=
  [(0, .consumeOp idU 1), (1000, .consumeOp idU 5), (2000, .blockOp idU 7)]

/-- Claim C10: a rejection for insufficient tokens (including the call that
first sets `blockUntil`) omits the `isBlocked` field from the result;
`isBlocked = true` appears exactly when the loaded record carries a
`blockUntil` that is still active at `now`. -/
theorem C10_isBlocked_presence (storagePref keyPref : String) (cache : Store)
    (identifier : String) (cost : ℚ) (config : RateLimitConfig) (now : ℚ) :
    (TokenBucketStrategy.consume storagePref keyPref cache identifier cost
        config now).1.isBlocked
      = (if blockActive (TokenBucketStrategy.loadOrInit storagePref keyPref
            cache identifier config now).blockUntil now
         then some true else none) := by
  simp only [TokenBucketStrategy.consume]
  split
  next h => simp [h]
  next h =>
    split
    · cases htr : truthyQ config.blockDuration <;> simp [h, htr]
    · simp [h]

/-- Claim C5: with an active stored block, `consume` short-circuits: it
returns the blocked verdict with `retryAfter = ceil((blockUntil - now)/1000)`
and `resetAt = blockUntil`, and issues no storage write. -/
theorem C5_block_short_circuit (storagePref keyPref : String) (cache : Store)
    (identifier : String) (cost : ℚ) (config : RateLimitConfig)
    (now b : ℚ) (d : RateLimitData)
    (hget : MemoryStorage.get storagePref cache
        (TokenBucketStrategy.buildKey keyPref identifier) now = some d)
    (hbu : d.blockUntil = some b) (hnow : 0 ≤ now) (hlt : now < b) :
    TokenBucketStrategy.consume storagePref keyPref cache identifier cost
        config now
      = ({ allowed := false, remaining := 0, limit := config.points,
           resetAt := b, retryAfter := jsCeil ((b - now) / 1000),
           consumed := d.consumed, isBlocked := some true }, []) := by
  have hb0 : ¬ b = 0 := by
    have : 0 < b := lt_of_le_of_lt hnow hlt
    exact ne_of_gt this
  simp [TokenBucketStrategy.consume, TokenBucketStrategy.loadOrInit, hget,
    blockActive, truthyQ, hbu, hb0, hlt]

/-- C5 witness: a store with `blockUntil = 10000`, queried at `now = 1000`. -/
theorem C5_witness :
    TokenBucketStrategy.consume ratelimitPfx tbPfx c5Store idU 1
        { points := 5, duration := 60 } 1000
      = ({ allowed := false, remaining := 0, limit := 5,
           resetAt := 10000, retryAfter := jsCeil ((10000 - 1000) / 1000),
           consumed := 3, isBlocked := some true }, []) :=
  C5_block_short_circuit ratelimitPfx tbPfx c5Store idU 1
    { points := 5, duration := 60 } 1000 10000
    { tokens := 0, lastRefill := 0, consumed := 3, blockUntil := some 10000 }
    (by simp [MemoryStorage.get, c5Store, tbFullKey, MemoryStorage.buildKey,
          TokenBucketStrategy.buildKey]; norm_num)
    rfl (by norm_num) (by norm_num)

/-- Claim C2: when the strategy/storage layer throws inside
`RateLimiter.consume`, the call fails open — `allowed = true`, `remaining`
and `limit` both the default config's `points`, `retryAfter = 0` — and the
registered `onError` callback fires exactly once. -/
theorem C2_fail_open (st : RateLimiter.LimiterState) (faults : StorageFaults)
    (storagePref keyPref : String) (cache : Store) (identifier : String)
    (points : ℚ) (config : Option ConfigOverride) (ns : Option String)
    (now : ℚ) (e : String)
    (hbyp : RateLimiter.sanitizeIdentifier identifier ∉ st.bypassList)
    (herr : TokenBucketStrategy.consumeF faults storagePref keyPref cache
        (RateLimiter.defaultKeyGenerator
          (RateLimiter.sanitizeIdentifier identifier) ns)
        points (mergeConfig st.defaultConfig config) now = .error e)
    (hcb : st.hasOnError = true) :
    RateLimiter.consume st faults storagePref keyPref cache identifier
        points config ns now
      = (RateLimiter.failOpenResult st.defaultConfig now, [], 1) := by
  simp [RateLimiter.consume, hbyp, herr, hcb]

/-- C2 witness: storage forced to fail on `get`, `onError` registered. -/
theorem C2_witness :
    RateLimiter.consume
        { defaultConfig := c6Config, bypassList := ∅, hasOnError := true }
        { failGet := true, failSet := false } ratelimitPfx tbPfx emptyStore
        idU 1 none none 0
      = (RateLimiter.failOpenResult c6Config 0, [], 1) :=
  C2_fail_open
    { defaultConfig := c6Config, bypassList := ∅, hasOnError := true }
    { failGet := true, failSet := false } ratelimitPfx tbPfx emptyStore
    idU 1 none none 0 "StorageError: get failed"
    (by simp) rfl rfl

theorem string_append_cancel_right {a b c : String} (h : a ++ c = b ++ c) :
    a = b := by
  apply String.ext
  have hd : a.data ++ c.data = b.data ++ c.data := by
    rw [← String.data_append, ← String.data_append, h]
  exact List.append_cancel_right hd

theorem string_append_cancel_left {a b c : String} (h : a ++ b = a ++ c) :
    b = c := by
  apply String.ext
  have hd : a.data ++ b.data = a.data ++ c.data := by
    rw [← String.data_append, ← String.data_append, h]
  exact List.append_cancel_left hd

theorem memBuildKey_inj (p : String) {k1 k2 : String}
    (h : MemoryStorage.buildKey p k1 = MemoryStorage.buildKey p k2) :
    k1 = k2 := by
  simp only [MemoryStorage.buildKey] at h
  exact string_append_cancel_left h

theorem tbBuildKey_inj (p : String) {k1 k2 : String}
    (h : TokenBucketStrategy.buildKey p k1 = TokenBucketStrategy.buildKey p k2) :
    k1 = k2 := by
  simp only [TokenBucketStrategy.buildKey] at h
  exact string_append_cancel_left h

theorem defaultKeyGenerator_ns_ne (identifier : String) {n1 n2 : String}
    (hne : n1 ≠ n2)
    (heq : RateLimiter.defaultKeyGenerator identifier (some n1)
         = RateLimiter.defaultKeyGenerator identifier (some n2)) : False := by
  simp only [RateLimiter.defaultKeyGenerator] at heq
  by_cases h1 : n1 = "" <;> by_cases h2 : n2 = ""
  · exact hne (h1.trans h2.symm)
  · rw [if_pos h1, if_neg h2] at heq
    have hlen := congrArg String.length heq
    simp only [String.length_append] at hlen
    have hone : (":" : String).length = 1 := rfl
    omega
  · rw [if_neg h1, if_pos h2] at heq
    have hlen := congrArg String.length heq
    simp only [String.length_append] at hlen
    have hone : (":" : String).length = 1 := rfl
    omega
  · rw [if_neg h1, if_neg h2] at heq
    exact hne (string_append_cancel_right (string_append_cancel_right heq))

/-- Claim C7: identifiers equal after sanitization address the same storage
key under any fixed namespace (e.g. the two concrete IP-ish identifiers
below), while distinct namespace values yield distinct storage keys for one
identifier. -/
theorem C7_key_construction :
    (∀ id1 id2 : String, ∀ ns : Option String,
        RateLimiter.sanitizeIdentifier id1 = RateLimiter.sanitizeIdentifier id2 →
        limiterStorageKey id1 ns = limiterStorageKey id2 ns)
    ∧ (∀ identifier : String, ∀ n1 n2 : String, n1 ≠ n2 →
        limiterStorageKey identifier (some n1) ≠ limiterStorageKey identifier (some n2))
    ∧ RateLimiter.sanitizeIdentifier idIp1 = RateLimiter.sanitizeIdentifier idIp2 := by
  refine ⟨?_, ?_, ?_⟩
  · intro id1 id2 ns h
    simp [limiterStorageKey, h]
  · intro identifier n1 n2 hne heq
    exact defaultKeyGenerator_ns_ne (RateLimiter.sanitizeIdentifier identifier)
      hne (tbBuildKey_inj tbPfx (memBuildKey_inj ratelimitPfx heq))
  · rfl

/-- C7 witness: the two sample identifiers share one bucket, and two
distinct namespaces give distinct keys. -/
theorem C7_witness :
    limiterStorageKey idIp1 none = limiterStorageKey idIp2 none
    ∧ limiterStorageKey idU (some nsA) ≠ limiterStorageKey idU (some nsB) :=
  ⟨C7_key_construction.1 idIp1 idIp2 none C7_key_construction.2.2,
   C7_key_construction.2.1 idU nsA nsB (by decide)⟩

/-- Claim C8: `getStatus` issues no storage write or delete, and its result
applies the blocked-state precedence and refill projection of `consume`:
an active block yields exactly `consume`'s blocked verdict, and otherwise
the reported fields come from `refillTokens` applied to the stored record. -/
theorem C8_getStatus_readonly (storagePref keyPref : String) (cache : Store)
    (identifier : String) (config : RateLimitConfig) (now : ℚ) :
    (TokenBucketStrategy.getStatus storagePref keyPref cache identifier
        config now).2 = []
    ∧ (∀ d : RateLimitData,
        MemoryStorage.get storagePref cache
            (TokenBucketStrategy.buildKey keyPref identifier) now = some d →
        blockActive d.blockUntil now = true →
        ∀ cost : ℚ,
          (TokenBucketStrategy.getStatus storagePref keyPref cache identifier
              config now).1
            = (TokenBucketStrategy.consume storagePref keyPref cache
                identifier cost config now).1)
    ∧ (∀ d : RateLimitData,
        MemoryStorage.get storagePref cache
            (TokenBucketStrategy.buildKey keyPref identifier) now = some d →
        blockActive d.blockUntil now = false →
        (TokenBucketStrategy.getStatus storagePref keyPref cache identifier
            config now).1.remaining
          = jsFloor ((TokenBucketStrategy.refillTokens d config now).tokens)
        ∧ (TokenBucketStrategy.getStatus storagePref keyPref cache identifier
            config now).1.allowed
          = decide (1 ≤ (TokenBucketStrategy.refillTokens d config now).tokens)
        ∧ (TokenBucketStrategy.getStatus storagePref keyPref cache identifier
            config now).1.consumed
          = (TokenBucketStrategy.refillTokens d config now).consumed) := by
  refine ⟨?_, ?_, ?_⟩
  · simp only [TokenBucketStrategy.getStatus]
    split
    · rfl
    · split
      · rfl
      · rfl
  · intro d hget hba cost
    simp [TokenBucketStrategy.getStatus, TokenBucketStrategy.consume,
      TokenBucketStrategy.loadOrInit, hget, hba]
  · intro d hget hba
    simp [TokenBucketStrategy.getStatus, hget, hba]

/-- C8 witness: evaluated on the blocked store `c5Store` at `now = 1000`. -/
theorem C8_witness :
    (TokenBucketStrategy.getStatus ratelimitPfx tbPfx c5Store idU
        { points := 5, duration := 60 } 1000).2 = []
    ∧ (TokenBucketStrategy.getStatus ratelimitPfx tbPfx c5Store idU
        { points := 5, duration := 60 } 1000).1
      = (TokenBucketStrategy.consume ratelimitPfx tbPfx c5Store idU 1
          { points := 5, duration := 60 } 1000).1 :=
  ⟨(C8_getStatus_readonly ratelimitPfx tbPfx c5Store idU
      { points := 5, duration := 60 } 1000).1,
   (C8_getStatus_readonly ratelimitPfx tbPfx c5Store idU
      { points := 5, duration := 60 } 1000).2.1
     { tokens := 0, lastRefill := 0, consumed := 3, blockUntil := some 10000 }
     (by simp [MemoryStorage.get, c5Store, tbFullKey, MemoryStorage.buildKey,
           TokenBucketStrategy.buildKey]; norm_num)
     (by simp [blockActive, truthyQ]; norm_num) 1⟩

theorem consume_blocked_eq (storagePref keyPref : String) (cache : Store)
    (identifier : String) (cost : ℚ) (config : RateLimitConfig) (now : ℚ)
    (d0 : RateLimitData)
    (hd0 : TokenBucketStrategy.loadOrInit storagePref keyPref cache
      identifier config now = d0)
    (hba : blockActive d0.blockUntil now = true) :
    TokenBucketStrategy.consume storagePref keyPref cache identifier cost
        config now
      = ({ allowed := false, remaining := 0, limit := config.points,
           resetAt := d0.blockUntil.getD 0,
           retryAfter := jsCeil ((d0.blockUntil.getD 0 - now) / 1000),
           consumed := d0.consumed, isBlocked := some true }, []) := by
  simp [TokenBucketStrategy.consume, hd0, hba]

theorem consume_reject_noblock_eq (storagePref keyPref : String)
    (cache : Store) (identifier : String) (cost : ℚ)
    (config : RateLimitConfig) (now : ℚ) (d0 : RateLimitData)
    (hd0 : TokenBucketStrategy.loadOrInit storagePref keyPref cache
      identifier config now = d0)
    (hba : blockActive d0.blockUntil now = false)
    (htr : truthyQ config.blockDuration = none)
    (hlt : (TokenBucketStrategy.refillTokens d0 config now).tokens < cost) :
    TokenBucketStrategy.consume storagePref keyPref cache identifier cost
        config now
      = ({ allowed := false,
           remaining :=
             jsFloor (TokenBucketStrategy.refillTokens d0 config now).tokens,
           limit := config.points,
           resetAt := now
             + jsCeil ((cost
                 - (TokenBucketStrategy.refillTokens d0 config now).tokens)
                 / TokenBucketStrategy.getRefillRate config) * 1000,
           retryAfter :=
             jsCeil ((cost
               - (TokenBucketStrategy.refillTokens d0 config now).tokens)
               / TokenBucketStrategy.getRefillRate config),
           consumed :=
             (TokenBucketStrategy.refillTokens d0 config now).consumed,
           isBlocked := none },
         [.setEff (TokenBucketStrategy.buildKey keyPref identifier)
            (TokenBucketStrategy.refillTokens d0 config now)
            (config.duration + 60)]) := by
  simp [TokenBucketStrategy.consume, hd0, hba, htr, hlt]

theorem consume_reject_block_eq (storagePref keyPref : String)
    (cache : Store) (identifier : String) (cost : ℚ)
    (config : RateLimitConfig) (now : ℚ) (d0 : RateLimitData) (bd : ℚ)
    (hd0 : TokenBucketStrategy.loadOrInit storagePref keyPref cache
      identifier config now = d0)
    (hba : blockActive d0.blockUntil now = false)
    (htr : truthyQ config.blockDuration = some bd)
    (hlt : (TokenBucketStrategy.refillTokens d0 config now).tokens < cost) :
    TokenBucketStrategy.consume storagePref keyPref cache identifier cost
        config now
      = ({ allowed := false,
           remaining :=
             jsFloor (TokenBucketStrategy.refillTokens d0 config now).tokens,
           limit := config.points,
           resetAt := now
             + jsCeil ((cost
                 - (TokenBucketStrategy.refillTokens d0 config now).tokens)
                 / TokenBucketStrategy.getRefillRate config) * 1000,
           retryAfter :=
             jsCeil ((cost
               - (TokenBucketStrategy.refillTokens d0 config now).tokens)
               / TokenBucketStrategy.getRefillRate config),
           consumed :=
             (TokenBucketStrategy.refillTokens d0 config now).consumed,
           isBlocked := none },
         [.setEff (TokenBucketStrategy.buildKey keyPref identifier)
            { TokenBucketStrategy.refillTokens d0 config now with
                blockUntil := some (now + bd * 1000) }
            (config.duration + bd)]) := by
  simp [TokenBucketStrategy.consume, hd0, hba, htr, hlt]

theorem consume_accept_eq (storagePref keyPref : String) (cache : Store)
    (identifier : String) (cost : ℚ) (config : RateLimitConfig) (now : ℚ)
    (d0 : RateLimitData)
    (hd0 : TokenBucketStrategy.loadOrInit storagePref keyPref cache
      identifier config now = d0)
    (hba : blockActive d0.blockUntil now = false)
    (hge : ¬ (TokenBucketStrategy.refillTokens d0 config now).tokens < cost) :
    TokenBucketStrategy.consume storagePref keyPref cache identifier cost
        config now
      = ({ allowed := true,
           remaining :=
             jsFloor ((TokenBucketStrategy.refillTokens d0 config now).tokens
               - cost),
           limit := config.points,
           resetAt := jsFloor (now
             + (config.points
                 - ((TokenBucketStrategy.refillTokens d0 config now).tokens
                     - cost))
               / TokenBucketStrategy.getRefillRate config * 1000),
           retryAfter := 0,
           consumed :=
             (TokenBucketStrategy.refillTokens d0 config now).consumed + cost,
           isBlocked := none },
         [.setEff (TokenBucketStrategy.buildKey keyPref identifier)
            { TokenBucketStrategy.refillTokens d0 config now with
                tokens :=
                  (TokenBucketStrategy.refillTokens d0 config now).tokens
                    - cost,
                consumed :=
                  (TokenBucketStrategy.refillTokens d0 config now).consumed
                    + cost }
            config.duration]) := by
  simp [TokenBucketStrategy.consume, hd0, hba, hge]

/-- Claim C3: with no active block, `consume` recomputes the balance as
`min(points, tokens + ((now - lastRefill)/1000) * (points/duration))` and
stamps `lastRefill = now` before the balance check (every record it persists
carries `lastRefill = now`, and the accept/reject verdict is taken on the
refilled balance); concretely, a `points=10, duration=10` bucket drained to
0 and retried 5 seconds later with cost 1 is allowed with `remaining = 4`. -/
theorem C3_refill_projection (storagePref keyPref : String) (cache : Store)
    (identifier : String) (cost : ℚ) (config : RateLimitConfig) (now : ℚ) :
    (∀ d : RateLimitData,
        TokenBucketStrategy.refillTokens d config now
          = { tokens := min config.points
                (d.tokens + ((now - d.lastRefill) / 1000)
                  * (config.points / config.duration)),
              lastRefill := now, consumed := d.consumed,
              blockUntil := d.blockUntil })
    ∧ (blockActive (TokenBucketStrategy.loadOrInit storagePref keyPref cache
          identifier config now).blockUntil now = false →
        ((TokenBucketStrategy.consume storagePref keyPref cache identifier
            cost config now).1.allowed
          = !decide ((TokenBucketStrategy.refillTokens
              (TokenBucketStrategy.loadOrInit storagePref keyPref cache
                identifier config now) config now).tokens < cost)
        ∧ ∀ k dat ttl, StorageEff.setEff k dat ttl ∈
            (TokenBucketStrategy.consume storagePref keyPref cache identifier
              cost config now).2 → dat.lastRefill = now))
    ∧ ((TokenBucketStrategy.consume ratelimitPfx tbPfx c3Store idU 1
          { points := 10, duration := 10 } 5000).1.allowed = true
       ∧ (TokenBucketStrategy.consume ratelimitPfx tbPfx c3Store idU 1
          { points := 10, duration := 10 } 5000).1.remaining = 4) := by
  refine ⟨fun d => rfl, fun hba => ⟨?_, ?_⟩, ?_, ?_⟩
  · simp only [TokenBucketStrategy.consume, hba, Bool.false_eq_true, if_false]
    split
    next hlt => simp [hlt]
    next hlt => simp [hlt]
  · intro k dat ttl hmem
    by_cases hlt : (TokenBucketStrategy.refillTokens
        (TokenBucketStrategy.loadOrInit storagePref keyPref cache identifier
          config now) config now).tokens < cost
    · cases htr : truthyQ config.blockDuration with
      | none =>
        rw [consume_reject_noblock_eq storagePref keyPref cache identifier
          cost config now _ rfl hba htr hlt] at hmem
        simp only [List.mem_singleton, StorageEff.setEff.injEq] at hmem
        rw [hmem.2.1]
        simp [TokenBucketStrategy.refillTokens]
      | some bd =>
        rw [consume_reject_block_eq storagePref keyPref cache identifier
          cost config now _ bd rfl hba htr hlt] at hmem
        simp only [List.mem_singleton, StorageEff.setEff.injEq] at hmem
        rw [hmem.2.1]
        simp [TokenBucketStrategy.refillTokens]
    · rw [consume_accept_eq storagePref keyPref cache identifier cost config
        now _ rfl hba hlt] at hmem
      simp only [List.mem_singleton, StorageEff.setEff.injEq] at hmem
      rw [hmem.2.1]
      simp [TokenBucketStrategy.refillTokens]
  · simp only [TokenBucketStrategy.consume, TokenBucketStrategy.loadOrInit,
      MemoryStorage.get, TokenBucketStrategy.buildKey, MemoryStorage.buildKey,
      blockActive, truthyQ, TokenBucketStrategy.refillTokens,
      TokenBucketStrategy.getRefillRate, jsFloor, jsCeil, c3Store, tbFullKey]
    norm_num [min_def]
  · simp only [TokenBucketStrategy.consume, TokenBucketStrategy.loadOrInit,
      MemoryStorage.get, TokenBucketStrategy.buildKey, MemoryStorage.buildKey,
      blockActive, truthyQ, TokenBucketStrategy.refillTokens,
      TokenBucketStrategy.getRefillRate, jsFloor, jsCeil, c3Store, tbFullKey]
    norm_num [min_def]

/-- C3 witness: on the empty store (fresh bucket, no block) the verdict is
the refilled-balance check, and the concrete drained-then-wait-5s scenario
is allowed with 4 tokens left. -/
theorem C3_witness :
    blockActive (TokenBucketStrategy.loadOrInit ratelimitPfx tbPfx emptyStore
        idU { points := 10, duration := 10 } 0).blockUntil 0 = false
    ∧ (TokenBucketStrategy.consume ratelimitPfx tbPfx emptyStore idU 1
        { points := 10, duration := 10 } 0).1.allowed
      = !decide ((TokenBucketStrategy.refillTokens
          (TokenBucketStrategy.loadOrInit ratelimitPfx tbPfx emptyStore idU
            { points := 10, duration := 10 } 0)
          { points := 10, duration := 10 } 0).tokens < 1)
    ∧ (TokenBucketStrategy.consume ratelimitPfx tbPfx c3Store idU 1
        { points := 10, duration := 10 } 5000).1.allowed = true
    ∧ (TokenBucketStrategy.consume ratelimitPfx tbPfx c3Store idU 1
        { points := 10, duration := 10 } 5000).1.remaining = 4 :=
  ⟨rfl,
   ((C3_refill_projection ratelimitPfx tbPfx emptyStore idU 1
      { points := 10, duration := 10 } 0).2.1 rfl).1,
   (C3_refill_projection ratelimitPfx tbPfx emptyStore idU 1
      { points := 10, duration := 10 } 0).2.2.1,
   (C3_refill_projection ratelimitPfx tbPfx emptyStore idU 1
      { points := 10, duration := 10 } 0).2.2.2⟩

theorem memGet_set_same (storagePref : String) (cache : Store) (key : String)
    (data : RateLimitData) (ttl tset tget : ℚ)
    (h : ¬ tget > tset + ttl * 1000) :
    MemoryStorage.get storagePref
        (MemoryStorage.set storagePref cache key data ttl tset) key tget
      = some data := by
  simp [MemoryStorage.get, MemoryStorage.set, h]

theorem memGet_set_other (storagePref : String) (cache : Store)
    (key key' : String) (data : RateLimitData) (ttl tset tget : ℚ)
    (h : MemoryStorage.buildKey storagePref key'
       ≠ MemoryStorage.buildKey storagePref key) :
    MemoryStorage.get storagePref
        (MemoryStorage.set storagePref cache key data ttl tset) key' tget
      = MemoryStorage.get storagePref cache key' tget := by
  simp [MemoryStorage.get, MemoryStorage.set, h]

/-- Claim C4: once a `consume` call rejects for insufficient tokens under a
config with a (positive) `blockDuration`, the identifier is reported blocked
by `isBlocked`, and every `consume` strictly within the following
`blockDuration` seconds returns `allowed = false, isBlocked = true`
regardless of its cost (hence regardless of refill). -/
theorem C4_block_escalation (storagePref keyPref : String) (cache : Store)
    (identifier : String) (cost : ℚ) (config : RateLimitConfig)
    (bd t t' : ℚ)
    (hbd : config.blockDuration = some bd) (hbdpos : 0 < bd)
    (hdur : 0 ≤ config.duration) (ht : 0 ≤ t) (htt' : t ≤ t')
    (ht' : t' < t + bd * 1000)
    (hrej : (TokenBucketStrategy.consume storagePref keyPref cache identifier
        cost config t).1.allowed = false)
    (hnotpre : (TokenBucketStrategy.consume storagePref keyPref cache
        identifier cost config t).1.isBlocked = none) :
    TokenBucketStrategy.isBlocked storagePref keyPref
        (applyEffs storagePref t cache
          (TokenBucketStrategy.consume storagePref keyPref cache identifier
            cost config t).2)
        identifier t = true
    ∧ ∀ cost' : ℚ,
        (TokenBucketStrategy.consume storagePref keyPref
            (applyEffs storagePref t cache
              (TokenBucketStrategy.consume storagePref keyPref cache
                identifier cost config t).2)
            identifier cost' config t').1.allowed = false
        ∧ (TokenBucketStrategy.consume storagePref keyPref
            (applyEffs storagePref t cache
              (TokenBucketStrategy.consume storagePref keyPref cache
                identifier cost config t).2)
            identifier cost' config t').1.isBlocked = some true := by
  by_cases hba : blockActive (TokenBucketStrategy.loadOrInit storagePref
      keyPref cache identifier config t).blockUntil t = true
  · rw [consume_blocked_eq storagePref keyPref cache identifier cost config t
      _ rfl hba] at hnotpre
    simp at hnotpre
  · have hba' : blockActive (TokenBucketStrategy.loadOrInit storagePref
        keyPref cache identifier config t).blockUntil t = false := by
      simpa using hba
    by_cases hlt : (TokenBucketStrategy.refillTokens
        (TokenBucketStrategy.loadOrInit storagePref keyPref cache identifier
          config t) config t).tokens < cost
    · have hbne : ¬ bd = 0 := ne_of_gt hbdpos
      have htr : truthyQ config.blockDuration = some bd := by
        simp [truthyQ, hbd, hbne]
      have hcons := consume_reject_block_eq storagePref keyPref cache
        identifier cost config t _ bd rfl hba' htr hlt
      rw [hcons]
      have hexp : ¬ t > t + (config.duration + bd) * 1000 := by
        have h1000 : (0:ℚ) ≤ config.duration + bd := by linarith
        have := mul_nonneg h1000 (by norm_num : (0:ℚ) ≤ 1000)
        linarith
      have hexp' : ¬ t' > t + (config.duration + bd) * 1000 := by
        have hle : bd * 1000 ≤ (config.duration + bd) * 1000 := by nlinarith
        linarith
      have hbne0 : ¬ t + bd * 1000 = 0 := by
        have : 0 < t + bd * 1000 := by nlinarith
        exact ne_of_gt this
      have hlt' : t' < t + bd * 1000 := ht'
      have hltt : t < t + bd * 1000 := by nlinarith
      constructor
      · simp only [applyEffs, List.foldl, applyEff]
        simp [TokenBucketStrategy.isBlocked,
          memGet_set_same storagePref cache
            (TokenBucketStrategy.buildKey keyPref identifier) _ _ t t hexp,
          truthyQ, hbne0, hltt]
      · intro cost'
        have hload : TokenBucketStrategy.loadOrInit storagePref keyPref
            (applyEffs storagePref t cache
              [StorageEff.setEff
                (TokenBucketStrategy.buildKey keyPref identifier)
                { TokenBucketStrategy.refillTokens
                    (TokenBucketStrategy.loadOrInit storagePref keyPref cache
                      identifier config t) config t with
                    blockUntil := some (t + bd * 1000) }
                (config.duration + bd)])
            identifier config t'
            = { TokenBucketStrategy.refillTokens
                  (TokenBucketStrategy.loadOrInit storagePref keyPref cache
                    identifier config t) config t with
                  blockUntil := some (t + bd * 1000) } := by
          simp only [applyEffs, List.foldl, applyEff]
          simp [TokenBucketStrategy.loadOrInit,
            memGet_set_same storagePref cache
              (TokenBucketStrategy.buildKey keyPref identifier) _ _ t t' hexp']
        have hba2 : blockActive
            ({ TokenBucketStrategy.refillTokens
                (TokenBucketStrategy.loadOrInit storagePref keyPref cache
                  identifier config t) config t with
                blockUntil := some (t + bd * 1000) } :
              RateLimitData).blockUntil t' = true := by
          simp [blockActive, truthyQ, hbne0, hlt']
        rw [consume_blocked_eq storagePref keyPref _ identifier cost' config
          t' _ hload hba2]
        constructor
        · rfl
        · rfl
    · rw [consume_accept_eq storagePref keyPref cache identifier cost config
        t _ rfl hba' hlt] at hrej
      simp at hrej

/-- C4 witness: a drained `points=5, duration=10, blockDuration=30` bucket,
rejected at `t = 0`, is blocked at `t = 0` and still rejected at
`t' = 1000` ms with `isBlocked = true` even for a different cost. -/
theorem C4_witness :
    TokenBucketStrategy.isBlocked ratelimitPfx tbPfx
        (applyEffs ratelimitPfx 0 c4Store
          (TokenBucketStrategy.consume ratelimitPfx tbPfx c4Store idU 1
            c4Config 0).2) idU 0 = true
    ∧ (TokenBucketStrategy.consume ratelimitPfx tbPfx
        (applyEffs ratelimitPfx 0 c4Store
          (TokenBucketStrategy.consume ratelimitPfx tbPfx c4Store idU 1
            c4Config 0).2) idU 3 c4Config 1000).1.allowed = false
    ∧ (TokenBucketStrategy.consume ratelimitPfx tbPfx
        (applyEffs ratelimitPfx 0 c4Store
          (TokenBucketStrategy.consume ratelimitPfx tbPfx c4Store idU 1
            c4Config 0).2) idU 3 c4Config 1000).1.isBlocked = some true := by
  have h := C4_block_escalation ratelimitPfx tbPfx c4Store idU 1 c4Config
    30 0 1000 rfl (by norm_num) (by norm_num [c4Config]) (by norm_num)
    (by norm_num) (by norm_num)
    (by simp only [TokenBucketStrategy.consume, TokenBucketStrategy.loadOrInit,
          MemoryStorage.get, TokenBucketStrategy.buildKey,
          MemoryStorage.buildKey, blockActive, truthyQ,
          TokenBucketStrategy.refillTokens, TokenBucketStrategy.getRefillRate,
          jsFloor, jsCeil, c4Store, c4Config, tbFullKey]
        norm_num [min_def])
    (by simp only [TokenBucketStrategy.consume, TokenBucketStrategy.loadOrInit,
          MemoryStorage.get, TokenBucketStrategy.buildKey,
          MemoryStorage.buildKey, blockActive, truthyQ,
          TokenBucketStrategy.refillTokens, TokenBucketStrategy.getRefillRate,
          jsFloor, jsCeil, c4Store, c4Config, tbFullKey]
        norm_num [min_def])
  exact ⟨h.1, (h.2 3).1, (h.2 3).2⟩

/-- C6 counterexample: `addBypass` stores the raw identifier, but `consume`
checks the sanitized identifier against the bypass list, so an identifier
containing characters outside `[a-zA-Z0-9._-]` (here `a:b`) is not bypassed:
with its bucket blocked, `consume` returns `allowed = false` (and hits
storage) despite `addBypass("a:b")`. -/
theorem C6_counterexample :
    (RateLimiter.consume c6State { failGet := false, failSet := false }
        ratelimitPfx tbPfx c6Store idAB 1 none none 0).1.allowed = false := by
  have hs : RateLimiter.sanitizeIdentifier idAB ∉ c6State.bypassList := by
    decide
  simp only [RateLimiter.consume, hs, if_false,
    TokenBucketStrategy.consumeF, Bool.false_and, Bool.and_self]
  simp only [TokenBucketStrategy.consume, TokenBucketStrategy.loadOrInit,
    MemoryStorage.get, TokenBucketStrategy.buildKey, MemoryStorage.buildKey,
    blockActive, truthyQ, TokenBucketStrategy.refillTokens,
    TokenBucketStrategy.getRefillRate, jsFloor, jsCeil, c6Store, tbFullKey,
    RateLimiter.defaultKeyGenerator, mergeConfig, c6State, c6Config]
  norm_num [min_def]

/-- Claim C6 (amended): an identifier whose **sanitized** form is in the
bypass list always gets the sentinel always-allowed result with no storage
access (whatever the bucket or fault state); after `removeBypass` of the
sanitized identifier, `consume` delegates to the token-bucket strategy
normally. -/
theorem C6_bypass_sanitized (st : RateLimiter.LimiterState)
    (faults : StorageFaults) (storagePref keyPref : String) (cache : Store)
    (identifier : String) (points : ℚ) (config : Option ConfigOverride)
    (ns : Option String) (now : ℚ) :
    (RateLimiter.sanitizeIdentifier identifier ∈ st.bypassList →
      RateLimiter.consume st faults storagePref keyPref cache identifier
          points config ns now
        = (RateLimiter.bypassResult now, [], 0))
    ∧ (RateLimiter.consume
          { st with bypassList := (RateLimiter.removeBypass st.bypassList
              (RateLimiter.sanitizeIdentifier identifier)) }
          { failGet := false, failSet := false } storagePref keyPref cache
          identifier points config ns now
        = ((TokenBucketStrategy.consume storagePref keyPref cache
              (RateLimiter.defaultKeyGenerator
                (RateLimiter.sanitizeIdentifier identifier) ns) points
              (mergeConfig st.defaultConfig config) now).1,
           (TokenBucketStrategy.consume storagePref keyPref cache
              (RateLimiter.defaultKeyGenerator
                (RateLimiter.sanitizeIdentifier identifier) ns) points
              (mergeConfig st.defaultConfig config) now).2, 0)) := by
  constructor
  · intro hmem
    simp [RateLimiter.consume, hmem]
  · have hnot : RateLimiter.sanitizeIdentifier identifier ∉
        RateLimiter.removeBypass st.bypassList
          (RateLimiter.sanitizeIdentifier identifier) :=
      Finset.not_mem_erase _ _
    simp [RateLimiter.consume, hnot, TokenBucketStrategy.consumeF,
      RateLimiter.removeBypass]

/-- C6 witness: the sanitize-invariant identifier `u`, present in the bypass
list, gets the sentinel result. -/
theorem C6_witness :
    RateLimiter.consume c6StateGood { failGet := false, failSet := false }
        ratelimitPfx tbPfx c6Store idU 1 none none 0
      = (RateLimiter.bypassResult 0, [], 0) :=
  (C6_bypass_sanitized c6StateGood { failGet := false, failSet := false }
    ratelimitPfx tbPfx c6Store idU 1 none none 0).1 (by decide)

theorem jsFloor_intCast (z : ℤ) : jsFloor (z : ℚ) = (z : ℚ) := by
  simp [jsFloor]

theorem refillTokens_no_elapsed (d : RateLimitData)
    (config : RateLimitConfig) (now : ℚ) (hlr : d.lastRefill = now)
    (hle : d.tokens ≤ config.points) :
    TokenBucketStrategy.refillTokens d config now = d := by
  have h0 : now - d.lastRefill = 0 := by rw [hlr, sub_self]
  simp [TokenBucketStrategy.refillTokens, h0, min_eq_right hle, ← hlr]

theorem consumeIter_state (storagePref keyPref identifier : String)
    (P : ℕ) (config : RateLimitConfig) (now : ℚ) (cache : Store)
    (hpts : config.points = (P : ℚ)) (hD : 0 < config.duration)
    (habsent : cache (MemoryStorage.buildKey storagePref
      (TokenBucketStrategy.buildKey keyPref identifier)) = none) :
    ∀ i : ℕ, i ≤ P →
      TokenBucketStrategy.loadOrInit storagePref keyPref
          (consumeIter storagePref keyPref identifier config now cache i)
          identifier config now
        = { tokens := (P : ℚ) - (i : ℚ), lastRefill := now,
            consumed := (i : ℚ), blockUntil := none } := by
  intro i
  induction i with
  | zero =>
    intro _
    simp [consumeIter, TokenBucketStrategy.loadOrInit, MemoryStorage.get,
      habsent, hpts]
  | succ n ih =>
    intro hle
    have hn : n ≤ P := Nat.le_of_succ_le hle
    have hd0 := ih hn
    have hle1 : (1:ℚ) ≤ (P : ℚ) - (n : ℚ) := by
      have h1 : (n:ℚ) + 1 ≤ (P:ℚ) := by exact_mod_cast hle
      linarith
    have hsub : ((P : ℚ) - (n : ℚ)) ≤ config.points := by
      rw [hpts]
      have h0 : (0:ℚ) ≤ (n:ℚ) := Nat.cast_nonneg n
      linarith
    have hrefill : TokenBucketStrategy.refillTokens
        { tokens := (P : ℚ) - (n : ℚ), lastRefill := now,
          consumed := (n : ℚ), blockUntil := none } config now
      = { tokens := (P : ℚ) - (n : ℚ), lastRefill := now,
          consumed := (n : ℚ), blockUntil := none } :=
      refillTokens_no_elapsed _ _ _ rfl hsub
    have hge : ¬ (TokenBucketStrategy.refillTokens
        { tokens := (P : ℚ) - (n : ℚ), lastRefill := now,
          consumed := (n : ℚ), blockUntil := none } config now).tokens
        < 1 := by
      rw [hrefill]
      simp only
      linarith
    have hacc := consume_accept_eq storagePref keyPref
      (consumeIter storagePref keyPref identifier config now cache n)
      identifier 1 config now _ hd0 rfl hge
    have hexp : ¬ now > now + config.duration * 1000 := by
      have h1 : (0:ℚ) < config.duration * 1000 := by positivity
      linarith
    simp only [consumeIter]
    rw [hacc]
    simp only [applyEffs, List.foldl, applyEff]
    simp only [TokenBucketStrategy.loadOrInit,
      memGet_set_same storagePref
        (consumeIter storagePref keyPref identifier config now cache n)
        (TokenBucketStrategy.buildKey keyPref identifier) _ _ now now hexp]
    rw [hrefill]
    simp only [RateLimitData.mk.injEq]
    refine ⟨by push_cast; ring, ?_, by push_cast; ring, ?_⟩ <;> trivial

/-- Claim C1: from an identifier absent from storage, with no time elapsing,
`consume(cost=1)` under an integer-capacity config `points = P ≥ 1` is
allowed with `remaining = P - i` on the `i`-th call for `i = 1..P`, and the
`(P+1)`-th call is rejected with `remaining = 0`. -/
theorem C1_monotonic_drain (storagePref keyPref identifier : String)
    (P : ℕ) (config : RateLimitConfig) (now : ℚ) (cache : Store)
    (hP : 1 ≤ P) (hpts : config.points = (P : ℚ)) (hD : 0 < config.duration)
    (habsent : cache (MemoryStorage.buildKey storagePref
      (TokenBucketStrategy.buildKey keyPref identifier)) = none) :
    (∀ i : ℕ, 1 ≤ i → i ≤ P →
      (TokenBucketStrategy.consume storagePref keyPref
          (consumeIter storagePref keyPref identifier config now cache
            (i - 1)) identifier 1 config now).1.allowed = true
      ∧ (TokenBucketStrategy.consume storagePref keyPref
          (consumeIter storagePref keyPref identifier config now cache
            (i - 1)) identifier 1 config now).1.remaining
        = (P : ℚ) - (i : ℚ))
    ∧ (TokenBucketStrategy.consume storagePref keyPref
        (consumeIter storagePref keyPref identifier config now cache P)
        identifier 1 config now).1.allowed = false
    ∧ (TokenBucketStrategy.consume storagePref keyPref
        (consumeIter storagePref keyPref identifier config now cache P)
        identifier 1 config now).1.remaining = 0 := by
  have hcastP : ∀ n : ℕ, n ≤ P → ((P : ℚ) - (n : ℚ)) ≤ config.points := by
    intro n _
    rw [hpts]
    have h0 : (0:ℚ) ≤ (n:ℚ) := Nat.cast_nonneg n
    linarith
  refine ⟨?_, ?_⟩
  · intro i h1 hiP
    have hstate := consumeIter_state storagePref keyPref identifier P config
      now cache hpts hD habsent (i - 1) (by omega)
    have hc : ((i - 1 : ℕ) : ℚ) = (i : ℚ) - 1 := by
      rw [Nat.cast_sub h1]
      simp
    have hle1 : (1:ℚ) ≤ (P : ℚ) - ((i - 1 : ℕ) : ℚ) := by
      rw [hc]
      have hi : (i:ℚ) ≤ (P:ℚ) := by exact_mod_cast hiP
      linarith
    have hrefill := refillTokens_no_elapsed
      { tokens := (P : ℚ) - ((i - 1 : ℕ) : ℚ), lastRefill := now,
        consumed := ((i - 1 : ℕ) : ℚ), blockUntil := none } config now rfl
      (hcastP (i - 1) (by omega))
    have hge : ¬ (TokenBucketStrategy.refillTokens
        { tokens := (P : ℚ) - ((i - 1 : ℕ) : ℚ), lastRefill := now,
          consumed := ((i - 1 : ℕ) : ℚ), blockUntil := none } config
        now).tokens < 1 := by
      rw [hrefill]
      simp only
      linarith
    rw [consume_accept_eq storagePref keyPref
      (consumeIter storagePref keyPref identifier config now cache (i - 1))
      identifier 1 config now _ hstate rfl hge]
    refine ⟨rfl, ?_⟩
    rw [hrefill]
    simp only
    have hcast2 : (P : ℚ) - ((i - 1 : ℕ) : ℚ) - 1
        = ((((P : ℤ) - (i : ℤ) : ℤ)) : ℚ) := by
      rw [hc]
      push_cast
      ring
    rw [hcast2, jsFloor_intCast]
    push_cast
    ring
  · have hstate := consumeIter_state storagePref keyPref identifier P config
      now cache hpts hD habsent P le_rfl
    have hrefill := refillTokens_no_elapsed
      { tokens := (P : ℚ) - (P : ℚ), lastRefill := now,
        consumed := (P : ℚ), blockUntil := none } config now rfl
      (hcastP P le_rfl)
    have hlt : (TokenBucketStrategy.refillTokens
        { tokens := (P : ℚ) - (P : ℚ), lastRefill := now,
          consumed := (P : ℚ), blockUntil := none } config now).tokens
        < 1 := by
      rw [hrefill]
      simp only
      linarith
    cases htr : truthyQ config.blockDuration with
    | none =>
      rw [consume_reject_noblock_eq storagePref keyPref
        (consumeIter storagePref keyPref identifier config now cache P)
        identifier 1 config now _ hstate rfl htr hlt]
      refine ⟨rfl, ?_⟩
      rw [hrefill]
      simp [jsFloor]
    | some bd =>
      rw [consume_reject_block_eq storagePref keyPref
        (consumeIter storagePref keyPref identifier config now cache P)
        identifier 1 config now _ bd hstate rfl htr hlt]
      refine ⟨rfl, ?_⟩
      rw [hrefill]
      simp [jsFloor]

/-- C1 witness: `points = 3, duration = 10`, empty store: the first call
leaves 2 tokens, the second 1, the third 0, and the fourth is rejected. -/
theorem C1_witness :
    ((TokenBucketStrategy.consume ratelimitPfx tbPfx
        (consumeIter ratelimitPfx tbPfx idU c9Trace3Config 0 emptyStore 0)
        idU 1 c9Trace3Config 0).1.allowed = true
     ∧ (TokenBucketStrategy.consume ratelimitPfx tbPfx
        (consumeIter ratelimitPfx tbPfx idU c9Trace3Config 0 emptyStore 0)
        idU 1 c9Trace3Config 0).1.remaining = (3 : ℚ) - (1 : ℕ))
    ∧ (TokenBucketStrategy.consume ratelimitPfx tbPfx
        (consumeIter ratelimitPfx tbPfx idU c9Trace3Config 0 emptyStore 3)
        idU 1 c9Trace3Config 0).1.allowed = false
    ∧ (TokenBucketStrategy.consume ratelimitPfx tbPfx
        (consumeIter ratelimitPfx tbPfx idU c9Trace3Config 0 emptyStore 3)
        idU 1 c9Trace3Config 0).1.remaining = 0 := by
  have h := C1_monotonic_drain ratelimitPfx tbPfx idU 3 c9Trace3Config 0
    emptyStore (by norm_num) (by norm_num [c9Trace3Config])
    (by norm_num [c9Trace3Config]) rfl
  exact ⟨by simpa using h.1 1 (by norm_num) (by norm_num), h.2.1, h.2.2⟩

theorem getStatus_effects_nil (storagePref keyPref : String) (cache : Store)
    (identifier : String) (config : RateLimitConfig) (now : ℚ) :
    (TokenBucketStrategy.getStatus storagePref keyPref cache identifier
      config now).2 = [] := by
  simp only [TokenBucketStrategy.getStatus]
  split
  · rfl
  · split
    · rfl
    · rfl

theorem storeInv_mono (config : RateLimitConfig) {t t' : ℚ} (h : t ≤ t')
    {cache : Store} (hinv : StoreInv config t cache) :
    StoreInv config t' cache := by
  intro k e he
  obtain ⟨h1, h2, h3⟩ := hinv k e he
  exact ⟨h1, h2, le_trans h3 h⟩

theorem storeInv_set (config : RateLimitConfig) (t : ℚ) (cache : Store)
    (storagePref key : String) (d : RateLimitData) (ttl : ℚ)
    (hinv : StoreInv config t cache) (h0 : 0 ≤ d.tokens)
    (h1 : d.tokens ≤ config.points) (h2 : d.lastRefill ≤ t) :
    StoreInv config t (MemoryStorage.set storagePref cache key d ttl t) := by
  intro k e he
  simp only [MemoryStorage.set] at he
  by_cases hk : k = MemoryStorage.buildKey storagePref key
  · rw [if_pos hk] at he
    injection he with he2
    subst he2
    exact ⟨h0, h1, h2⟩
  · rw [if_neg hk] at he
    exact hinv k e he

theorem storeInv_delete (config : RateLimitConfig) (t : ℚ) (cache : Store)
    (storagePref key : String) (hinv : StoreInv config t cache) :
    StoreInv config t (MemoryStorage.delete storagePref cache key) := by
  intro k e he
  simp only [MemoryStorage.delete] at he
  by_cases hk : k = MemoryStorage.buildKey storagePref key
  · rw [if_pos hk] at he
    cases he
  · rw [if_neg hk] at he
    exact hinv k e he

theorem refillTokens_bounds (d : RateLimitData) (config : RateLimitConfig)
    (now : ℚ) (h0 : 0 ≤ d.tokens) (hlr : d.lastRefill ≤ now)
    (hpts : 0 ≤ config.points) (hdur : 0 < config.duration) :
    0 ≤ (TokenBucketStrategy.refillTokens d config now).tokens
    ∧ (TokenBucketStrategy.refillTokens d config now).tokens
      ≤ config.points := by
  simp only [TokenBucketStrategy.refillTokens,
    TokenBucketStrategy.getRefillRate]
  constructor
  · exact le_min hpts (add_nonneg h0 (mul_nonneg
      (div_nonneg (by linarith) (by norm_num))
      (div_nonneg hpts (le_of_lt hdur))))
  · exact min_le_left _ _

theorem loadOrInit_bounds (storagePref keyPref : String) (cache : Store)
    (identifier : String) (config : RateLimitConfig) (now : ℚ)
    (hpts : 0 ≤ config.points) (hinv : StoreInv config now cache) :
    0 ≤ (TokenBucketStrategy.loadOrInit storagePref keyPref cache identifier
          config now).tokens
    ∧ (TokenBucketStrategy.loadOrInit storagePref keyPref cache identifier
          config now).tokens ≤ config.points
    ∧ (TokenBucketStrategy.loadOrInit storagePref keyPref cache identifier
          config now).lastRefill ≤ now := by
  simp only [TokenBucketStrategy.loadOrInit, MemoryStorage.get]
  cases hc : cache (MemoryStorage.buildKey storagePref
      (TokenBucketStrategy.buildKey keyPref identifier)) with
  | none => simp [hpts]
  | some entry =>
    obtain ⟨h1, h2, h3⟩ := hinv _ _ hc
    by_cases hexp : now > entry.expiresAt
    · simp [hexp, hpts]
    · simp only [hexp, if_false]
      exact ⟨h1, h2, h3⟩

theorem execOp_inv (storagePref keyPref : String) (config : RateLimitConfig)
    (cache : Store) (t : ℚ) (op : Op)
    (hpts : 0 ≤ config.points) (hdur : 0 < config.duration)
    (hcost : opCostOK op) (hinv : StoreInv config t cache) :
    StoreInv config t (execOp storagePref keyPref config cache t op) := by
  cases op with
  | consumeOp identifier cost =>
    have hload := loadOrInit_bounds storagePref keyPref cache identifier
      config t hpts hinv
    have hrb := refillTokens_bounds
      (TokenBucketStrategy.loadOrInit storagePref keyPref cache identifier
        config t) config t hload.1 hload.2.2 hpts hdur
    have hlr : (TokenBucketStrategy.refillTokens
        (TokenBucketStrategy.loadOrInit storagePref keyPref cache identifier
          config t) config t).lastRefill = t := rfl
    by_cases hba : blockActive (TokenBucketStrategy.loadOrInit storagePref
        keyPref cache identifier config t).blockUntil t = true
    · simp only [execOp]
      rw [consume_blocked_eq storagePref keyPref cache identifier cost config
        t _ rfl hba]
      simpa [applyEffs] using hinv
    · have hba' : blockActive (TokenBucketStrategy.loadOrInit storagePref
          keyPref cache identifier config t).blockUntil t = false := by
        simpa using hba
      have hc : (0:ℚ) ≤ cost := hcost
      by_cases hlt : (TokenBucketStrategy.refillTokens
          (TokenBucketStrategy.loadOrInit storagePref keyPref cache
            identifier config t) config t).tokens < cost
      · cases htr : truthyQ config.blockDuration with
        | none =>
          simp only [execOp]
          rw [consume_reject_noblock_eq storagePref keyPref cache identifier
            cost config t _ rfl hba' htr hlt]
          simp only [applyEffs, List.foldl, applyEff]
          exact storeInv_set config t cache storagePref _ _ _ hinv hrb.1
            hrb.2 (le_of_eq hlr)
        | some bd =>
          simp only [execOp]
          rw [consume_reject_block_eq storagePref keyPref cache identifier
            cost config t _ bd rfl hba' htr hlt]
          simp only [applyEffs, List.foldl, applyEff]
          exact storeInv_set config t cache storagePref _ _ _ hinv hrb.1
            hrb.2 (le_of_eq hlr)
      · simp only [execOp]
        rw [consume_accept_eq storagePref keyPref cache identifier cost
          config t _ rfl hba' hlt]
        simp only [applyEffs, List.foldl, applyEff]
        refine storeInv_set config t cache storagePref _ _ _ hinv ?_ ?_ ?_
        · simp only
          linarith [not_lt.mp hlt]
        · simp only
          linarith [hrb.2]
        · exact le_of_eq hlr
  | statusOp identifier =>
    simpa [execOp, getStatus_effects_nil, applyEffs] using hinv
  | blockOp identifier d =>
    simp only [execOp, TokenBucketStrategy.block, applyEffs, List.foldl,
      applyEff]
    exact storeInv_set config t cache storagePref _ _ _ hinv le_rfl hpts
      le_rfl
  | resetOp identifier =>
    simp only [execOp, TokenBucketStrategy.reset, applyEffs, List.foldl,
      applyEff]
    exact storeInv_delete config t cache storagePref _ hinv

theorem traceOK_take (t0 : ℚ) :
    ∀ (tr : List (ℚ × Op)) (n : ℕ), traceOK t0 tr → traceOK t0 (tr.take n)
  | [], n, _ => by simp [List.take_nil, traceOK]
  | (t, op) :: rest, 0, _ => trivial
  | (t, op) :: rest, n + 1, h =>
    ⟨h.1, h.2.1, traceOK_take t rest n h.2.2⟩

theorem runTrace_inv (storagePref keyPref : String)
    (config : RateLimitConfig)
    (hpts : 0 ≤ config.points) (hdur : 0 < config.duration) :
    ∀ (tr : List (ℚ × Op)) (t0 : ℚ) (cache : Store),
      traceOK t0 tr → StoreInv config t0 cache →
      ∀ k e, runTrace storagePref keyPref config cache tr k = some e →
        0 ≤ e.data.tokens ∧ e.data.tokens ≤ config.points := by
  intro tr
  induction tr with
  | nil =>
    intro t0 cache _ hinv k e he
    simp only [runTrace] at he
    exact ⟨(hinv k e he).1, (hinv k e he).2.1⟩
  | cons p rest ih =>
    obtain ⟨t, op⟩ := p
    intro t0 cache htr hinv
    obtain ⟨ht0, hop, hrest⟩ := htr
    have hinv' : StoreInv config t cache := storeInv_mono config ht0 hinv
    have hstep := execOp_inv storagePref keyPref config cache t op hpts hdur
      hop hinv'
    intro k e he
    simp only [runTrace] at he
    exact ih t (execOp storagePref keyPref config cache t op) hrest hstep
      k e he

/-- Claim C9: along any time-monotone trace of `consume` (non-negative
cost), `getStatus`, `block` and `reset` operations under a fixed valid
config, every record in storage after any prefix of the trace has
`0 ≤ tokens ≤ config.points` (every persisted record is the last write of
some prefix, so this covers every record ever persisted). -/
theorem C9_tokens_invariant (storagePref keyPref : String)
    (config : RateLimitConfig) (t0 : ℚ) (cache : Store)
    (tr : List (ℚ × Op))
    (hpts : 0 ≤ config.points) (hdur : 0 < config.duration)
    (htr : traceOK t0 tr) (hinv : StoreInv config t0 cache) :
    ∀ n : ℕ, ∀ k e,
      runTrace storagePref keyPref config cache (tr.take n) k = some e →
      0 ≤ e.data.tokens ∧ e.data.tokens ≤ config.points :=
  fun n =>
    runTrace_inv storagePref keyPref config hpts hdur (tr.take n) t0 cache
      (traceOK_take t0 tr n htr) hinv

/-- C9 witness: running the concrete three-step trace from the empty store
leaves the blocked record `tokens = 0` at the bucket key, within bounds. -/
theorem C9_witness :
    0 ≤ (RateLimitData.mk 0 2000 0 (some 9000)).tokens
    ∧ (RateLimitData.mk 0 2000 0 (some 9000)).tokens ≤ c9Config.points :=
  C9_tokens_invariant ratelimitPfx tbPfx c9Config 0 emptyStore c9Trace
    (by norm_num [c9Config]) (by norm_num [c9Config])
    (by norm_num [c9Trace, traceOK, opCostOK])
    (fun k e h => by simp [emptyStore] at h)
    3 (tbFullKey idU)
    (StoreEntry.mk (RateLimitData.mk 0 2000 0 (some 9000)) 69000)
    (by
      simp only [c9Trace, List.take, runTrace, execOp,
        TokenBucketStrategy.consume, TokenBucketStrategy.loadOrInit,
        TokenBucketStrategy.block, TokenBucketStrategy.reset,
        MemoryStorage.get, MemoryStorage.set, MemoryStorage.delete,
        TokenBucketStrategy.buildKey, MemoryStorage.buildKey, blockActive,
        truthyQ, TokenBucketStrategy.refillTokens,
        TokenBucketStrategy.getRefillRate, jsFloor, jsCeil, applyEffs,
        List.foldl, applyEff, emptyStore, c9Config, tbFullKey]
      norm_num [min_def])
